import Mathlib

set_option linter.unusedVariables false

/-!
Shallow embedding of `react-native-email-link` (src/index.ios.js).

The module is table-driven: three static registries (`prefixes`, `titles`,
`uriParams`) plus four operations (`getUrlParams`, `isAppInstalled`,
`askAppChoice`, `getApp`) and two entry points (`openInbox`, `openComposer`).

External collaborators (the OS `Linking.canOpenURL` probe, the
`ActionSheetIOS` picker, and the `Linking.openURL` launcher) are modelled by
an environment `Env` of pure functions, and every operation additionally
returns the list of collaborator calls it made (`List Call`), so that claims
of the form "without invoking the probe / the picker" are statable.

JavaScript values are modelled as follows: a possibly-absent string field is
`Option String` (`none` = absent / null / undefined; `some ""` is present but
falsy); JS truthiness of such a field is `truthy`; the options argument of
`getApp` (which in JS may be any value) is `OptionsArg`; a thrown
`EmailException` or JS `TypeError` is an `Except.error` of `EmailError`.
-/

deriving instance DecidableEq for Except

namespace EmailLink

/-- Association-list lookup, modelling JS property access `obj[k]` on the
static object literals of the module (`none` = `undefined`). -/
def lookupKey {α : Type} (k : String) : List (String × α) → Option α
  | [] => none
  | p :: t => if p.1 = k then some p.2 else lookupKey k t

/-- The `prefixes` table of the source: app id to URL scheme. -/
def prefixes : List (String × String) :=
  [("apple-mail", "message://"),
   ("gmail", "googlegmail://"),
   ("inbox", "inbox-gmail://"),
   ("spark", "readdle-spark://"),
   ("airmail", "airmail://"),
   ("outlook", "ms-outlook://")]

/-- Object.keys of the registry, in declaration order. -/
def prefixKeys : List String := prefixes.map Prod.fst

/-- The `titles` table of the source: app id to display title. -/
def titles : List (String × String) :=
  [("apple-mail", "Mail"),
   ("gmail", "Gmail"),
   ("inbox", "Inbox"),
   ("spark", "Spark"),
   ("airmail", "Airmail"),
   ("outlook", "Outlook")]

/-- The apple-mail compose dialect: no `path`, no `to` (the recipient is
carried by the URL path instead). -/
def appleMailParms : List (String × String) :=
  [("cc", "cc"), ("bcc", "bcc"), ("subject", "subject"), ("body", "body")]

/-- The gmail compose dialect. -/
def gmailParms : List (String × String) :=
  [("path", "co"), ("to", "to"), ("cc", "cc"), ("bcc", "bcc"),
   ("subject", "subject"), ("body", "body")]

/-- The inbox compose dialect. -/
def inboxParms : List (String × String) :=
  [("path", "co"), ("to", "to"), ("cc", "cc"), ("bcc", "bcc"),
   ("subject", "subject"), ("body", "body")]

/-- The spark compose dialect (its recipient key is `recipient`). -/
def sparkParms : List (String × String) :=
  [("path", "compose"), ("to", "recipient"), ("cc", "cc"), ("bcc", "bcc"),
   ("subject", "subject"), ("body", "body")]

/-- The airmail compose dialect (its body key is `htmlBody`). -/
def airmailParms : List (String × String) :=
  [("path", "compose"), ("to", "to"), ("cc", "cc"), ("bcc", "bcc"),
   ("subject", "subject"), ("body", "htmlBody")]

/-- The outlook compose dialect. -/
def outlookParms : List (String × String) :=
  [("path", "compose"), ("to", "to"), ("cc", "cc"), ("bcc", "bcc"),
   ("subject", "subject"), ("body", "body")]

/-- The `uriParams` table of the source: app id to compose dialect, each
dialect an ordered record of field name to query-parameter key. -/
def uriParams : List (String × List (String × String)) :=
  [("apple-mail", appleMailParms),
   ("gmail", gmailParms),
   ("inbox", inboxParms),
   ("spark", sparkParms),
   ("airmail", airmailParms),
   ("outlook", outlookParms)]

/-- The options bundle recognized by the module: `app`, the four prompt
options, and the five compose fields. `none` models an absent (or
null/undefined) property; `some ""` a present but falsy string. -/
structure Options where
  app : Option String := none
  title : Option String := none
  message : Option String := none
  cancelLabel : Option String := none
  removeText : Option Bool := none
  «to» : Option String := none
  cc : Option String := none
  bcc : Option String := none
  subject : Option String := none
  body : Option String := none
deriving DecidableEq

/-- JS truthiness of a possibly-absent string property: present and not the
empty string. -/
def truthy : Option String → Bool
  | some s => s ≠ ""
  | none => false

/-- Dynamic property read `options[k]` on an options bundle, for the string
fields the module accesses through computed keys (the compose fields). -/
def Options.get (o : Options) (k : String) : Option String :=
  if k = "to" then o.«to»
  else if k = "cc" then o.cc
  else if k = "bcc" then o.bcc
  else if k = "subject" then o.subject
  else if k = "body" then o.body
  else none

/-- The reduce of `getUrlParams`: walk the dialect entries in declaration
order and push `key=value` for each field whose option value is truthy. -/
def getUrlPairs (appParms : List (String × String)) (o : Options) : List String :=
  appParms.foldl
    (fun params p =>
      if truthy (Options.get o p.1) then
        params ++ [p.2 ++ "=" ++ (Options.get o p.1).getD ""]
      else params)
    []

/-- The `getUrlParams` function of the source: dialect lookup, the
apple-mail path special case, and the query-string assembly. A missing
dialect returns the empty string; a missing `path` entry would stringify to
"undefined" as in a JS template literal. -/
def getUrlParams (app : String) (o : Options) : String :=
  match lookupKey app uriParams with
  | none => ""
  | some appParms =>
    let path :=
      if app = "apple-mail" then (Options.get o "to").getD ""
      else (lookupKey "path" appParms).getD "undefined"
    path ++ "?" ++ String.intercalate "&" (getUrlPairs appParms o)

/-- A call made to an external collaborator, in order of occurrence:
a `Linking.canOpenURL` probe with a scheme, an `ActionSheetIOS` presentation
with its option labels, or a `Linking.openURL` launch with a URL. -/
inductive Call : Type
  | probe (scheme : String)
  | picker (labels : List String)
  | launch (url : String)
deriving DecidableEq

/-- The external collaborators: the scheme probe (which may reject, modelled
by `Except.error`), and the action-sheet picker, which given the label list
and the cancel index returns the pressed button index. -/
structure Env where
  canOpen : String → Except Unit Bool
  pick : List String → Nat → Nat

/-- The errors the module can surface: the two `EmailException` kinds
(invalid options; no email app found), the JS `TypeError` raised when the
`in` operator is applied to a non-object, and the launcher rejection on a
non-string URL. -/
inductive EmailError : Type
  | invalidOptions
  | noAppAvailable
  | typeError
  | undefinedScheme
deriving DecidableEq

/-- The `isAppInstalled` function of the source: unknown ids resolve false
without probing; otherwise the app's scheme is probed and any probe
rejection is normalized to false. -/
def isAppInstalled (env : Env) (app : String) : Bool × List Call :=
  match lookupKey app prefixes with
  | none => (false, [])
  | some scheme =>
    ((match env.canOpen scheme with
      | .ok b => b
      | .error _ => false),
     [Call.probe scheme])

/-- The `availableApps` list accumulated by `askAppChoice`: the registry
keys, in declaration order, whose probe answered true. -/
def installedApps (env : Env) : List String :=
  prefixKeys.filter (fun a => (isAppInstalled env a).1)

/-- The probe calls issued by the `askAppChoice` loop, one per registry key
in declaration order. -/
def probeTrace (env : Env) : List Call :=
  (prefixKeys.map (fun a => (isAppInstalled env a).2)).flatten

/-- The label list handed to the action sheet: the available apps' display
titles, in the order of `installedApps`, followed by the cancel label (which
defaults to Cancel). -/
def pickerLabels (env : Env) (cancelLabel : Option String) : List String :=
  (installedApps env).map (fun a => (lookupKey a titles).getD "undefined")
    ++ [cancelLabel.getD "Cancel"]

/-- The `askAppChoice` function of the source: probe every registered app in
order; with fewer than two available resolve `availableApps[0] || null`;
otherwise present the picker with the available apps' titles plus the cancel
label and map the pressed index back (the cancel index, or any out-of-range
index, resolves null). The `title`, `message` and `removeText` arguments
only decorate the sheet and do not affect resolution. -/
def askAppChoice (env : Env) (title message cancelLabel : Option String)
    (removeText : Option Bool) : Option String × List Call :=
  let availableApps := installedApps env
  let t := probeTrace env
  if availableApps.length < 2 then
    (availableApps.head?.bind (fun a => if a = "" then none else some a), t)
  else
    let opts := pickerLabels env cancelLabel
    let idx := env.pick opts (opts.length - 1)
    ((if idx = opts.length - 1 then none else availableApps.get? idx),
     t ++ [Call.picker opts])

/-- The options argument of `getApp` as a JS value: null/undefined, a
non-object primitive (split by truthiness, which is all the validation guard
observes), or an actual options bundle. -/
inductive OptionsArg : Type
  | nullish
  | prim (isTruthy : Bool)
  | bundle (o : Options)

/-- The tail of `getApp` once no explicit app was supplied: ask the user (or
the availability count) for an app and throw `No email app found` when the
result is falsy. -/
def resolveByChoice (env : Env) (o : Options) : Except EmailError String × List Call :=
  let r := askAppChoice env o.title o.message o.cancelLabel o.removeText
  match r.1 with
  | some a => if a = "" then (.error .noAppAvailable, r.2) else (.ok a, r.2)
  | none => (.error .noAppAvailable, r.2)

/-- The `getApp` function of the source. A truthy non-object argument fails
the `typeof` guard (`invalidOptions`); a falsy non-object or nullish
argument slips past the guard (`options &&` short-circuits) and then crashes
with a `TypeError` at the expression `'app' in options`. On a bundle: a
present, truthy, unrecognized `app` throws `invalidOptions`; a present
truthy known `app` is returned as is, with no collaborator calls; otherwise
the choice flow runs. -/
def getApp (env : Env) (arg : OptionsArg) : Except EmailError String × List Call :=
  match arg with
  | .nullish => (.error .typeError, [])
  | .prim isTruthy =>
    if isTruthy then (.error .invalidOptions, []) else (.error .typeError, [])
  | .bundle o =>
    match o.app with
    | some s =>
      if s ≠ "" ∧ s ∉ prefixKeys then (.error .invalidOptions, [])
      else if s ≠ "" then (.ok s, [])
      else resolveByChoice env o
    | none => resolveByChoice env o

/-- The `openInbox` entry point: resolve an app and launch its registry
scheme. A failed registry lookup would hand `undefined` to the launcher,
which rejects (`undefinedScheme`); resolution errors propagate. -/
def openInbox (env : Env) (arg : OptionsArg) : Except EmailError Unit × List Call :=
  let r := getApp env arg
  match r.1 with
  | .ok app =>
    match lookupKey app prefixes with
    | some scheme => (.ok (), r.2 ++ [Call.launch scheme])
    | none => (.error .undefinedScheme, r.2)
  | .error e => (.error e, r.2)

/-- The `openComposer` entry point: resolve an app, build the compose
parameters, and launch `prefix + params` where the prefix is the fixed
`mailto:` for apple-mail and the registry scheme otherwise (an absent scheme
stringifies to "undefined" inside the template literal). The middle match
arm is dead code: `getApp` only succeeds on a bundle, and on a non-object
the subsequent property reads of `getUrlParams` would raise a `TypeError`. -/
def openComposer (env : Env) (arg : OptionsArg) : Except EmailError Unit × List Call :=
  let r := getApp env arg
  match r.1, arg with
  | .ok app, .bundle o =>
    let params := getUrlParams app o
    let pfx := (if app = "apple-mail" then some "mailto:"
      else lookupKey app prefixes).getD "undefined"
    (.ok (), r.2 ++ [Call.launch (pfx ++ params)])
  | .ok _, _ => (.error .typeError, r.2)
  | .error e, _ => (.error e, r.2)

end EmailLink

namespace EmailLink

/-! ### Spec-side URL builder (written from the words of the spec, for the
refinement claim about `getUrlParams`) -/

/-- Spec: the compose fields, "among `to`, `cc`, `bcc`, `subject`, `body`". -/
def composeFields : List String := ["to", "cc", "bcc", "subject", "body"]

/-- Spec-side pair list: one `key=value` pair for each compose field that the
dialect defines and for which the options supply a non-empty value, with the
dialect's key and the raw unencoded value, in dialect-field order. -/
def composePairsSpec (d : List (String × String)) (o : Options) : List String :=
  composeFields.filterMap (fun f =>
    match lookupKey f d with
    | some key =>
      if truthy (Options.get o f) then some (key ++ "=" ++ (Options.get o f).getD "")
      else none
    | none => none)

/-- Spec-side path: for apple-mail the literal value of the recipient option
(empty string if absent), otherwise the dialect's fixed path value. -/
def composePathSpec (app : String) (d : List (String × String)) (o : Options) : String :=
  if app = "apple-mail" then (Options.get o "to").getD ""
  else (lookupKey "path" d).getD "undefined"

/-- Spec-side compose URL: path, then a question mark, then the pairs joined
with ampersands (a trailing bare question mark when no pairs exist). -/
def composeUrlSpec (app : String) (o : Options) : String :=
  match lookupKey app uriParams with
  | none => ""
  | some d =>
    composePathSpec app d o ++ "?" ++ String.intercalate "&" (composePairsSpec d o)

/-! ### Evaluation and structure lemmas -/

/-- An absent property is falsy. -/
theorem truthy_none : truthy none = false := rfl

/-- No options-bundle property is named `path`. -/
theorem get_path (o : Options) : Options.get o "path" = none := rfl

theorem get_to (o : Options) : Options.get o "to" = o.«to» := rfl

theorem get_cc (o : Options) : Options.get o "cc" = o.cc := rfl

theorem get_bcc (o : Options) : Options.get o "bcc" = o.bcc := rfl

theorem get_subject (o : Options) : Options.get o "subject" = o.subject := rfl

theorem get_body (o : Options) : Options.get o "body" = o.body := rfl

/-- The body of the reduce of `getUrlParams`, applied to one dialect entry. -/
def pairOf (o : Options) (p : String × String) : Option String :=
  if truthy (Options.get o p.1) then some (p.2 ++ "=" ++ (Options.get o p.1).getD "")
  else none

theorem getUrlPairs_aux (o : Options) (d : List (String × String)) (acc : List String) :
    d.foldl
      (fun params p =>
        if truthy (Options.get o p.1) then
          params ++ [p.2 ++ "=" ++ (Options.get o p.1).getD ""]
        else params)
      acc = acc ++ d.filterMap (pairOf o) := by
  induction d generalizing acc with
  | nil => simp
  | cons p t ih =>
    simp only [List.foldl_cons, List.filterMap_cons, pairOf]
    split_ifs with h
    · simp [ih, h, pairOf]
    · simp [ih, h, pairOf]

/-- The accumulating reduce of `getUrlParams` is a `filterMap` over the
dialect entries. -/
theorem getUrlPairs_eq (d : List (String × String)) (o : Options) :
    getUrlPairs d o = d.filterMap (pairOf o) := by
  simpa using getUrlPairs_aux o d []

theorem pairs_spec_appleMail (o : Options) :
    appleMailParms.filterMap (pairOf o) = composePairsSpec appleMailParms o := by
  cases hto : truthy o.«to» <;> cases hcc : truthy o.cc <;> cases hbcc : truthy o.bcc <;>
    cases hsub : truthy o.subject <;> cases hbody : truthy o.body <;>
  simp [composePairsSpec, composeFields, pairOf, lookupKey, appleMailParms, truthy_none,
    get_path, get_to, get_cc, get_bcc, get_subject, get_body, hto, hcc, hbcc, hsub, hbody]

theorem pairs_spec_gmail (o : Options) :
    gmailParms.filterMap (pairOf o) = composePairsSpec gmailParms o := by
  cases hto : truthy o.«to» <;> cases hcc : truthy o.cc <;> cases hbcc : truthy o.bcc <;>
    cases hsub : truthy o.subject <;> cases hbody : truthy o.body <;>
  simp [composePairsSpec, composeFields, pairOf, lookupKey, gmailParms, truthy_none,
    get_path, get_to, get_cc, get_bcc, get_subject, get_body, hto, hcc, hbcc, hsub, hbody]

theorem pairs_spec_inbox (o : Options) :
    inboxParms.filterMap (pairOf o) = composePairsSpec inboxParms o := by
  cases hto : truthy o.«to» <;> cases hcc : truthy o.cc <;> cases hbcc : truthy o.bcc <;>
    cases hsub : truthy o.subject <;> cases hbody : truthy o.body <;>
  simp [composePairsSpec, composeFields, pairOf, lookupKey, inboxParms, truthy_none,
    get_path, get_to, get_cc, get_bcc, get_subject, get_body, hto, hcc, hbcc, hsub, hbody]

theorem pairs_spec_spark (o : Options) :
    sparkParms.filterMap (pairOf o) = composePairsSpec sparkParms o := by
  cases hto : truthy o.«to» <;> cases hcc : truthy o.cc <;> cases hbcc : truthy o.bcc <;>
    cases hsub : truthy o.subject <;> cases hbody : truthy o.body <;>
  simp [composePairsSpec, composeFields, pairOf, lookupKey, sparkParms, truthy_none,
    get_path, get_to, get_cc, get_bcc, get_subject, get_body, hto, hcc, hbcc, hsub, hbody]

theorem pairs_spec_airmail (o : Options) :
    airmailParms.filterMap (pairOf o) = composePairsSpec airmailParms o := by
  cases hto : truthy o.«to» <;> cases hcc : truthy o.cc <;> cases hbcc : truthy o.bcc <;>
    cases hsub : truthy o.subject <;> cases hbody : truthy o.body <;>
  simp [composePairsSpec, composeFields, pairOf, lookupKey, airmailParms, truthy_none,
    get_path, get_to, get_cc, get_bcc, get_subject, get_body, hto, hcc, hbcc, hsub, hbody]

theorem pairs_spec_outlook (o : Options) :
    outlookParms.filterMap (pairOf o) = composePairsSpec outlookParms o := by
  cases hto : truthy o.«to» <;> cases hcc : truthy o.cc <;> cases hbcc : truthy o.bcc <;>
    cases hsub : truthy o.subject <;> cases hbody : truthy o.body <;>
  simp [composePairsSpec, composeFields, pairOf, lookupKey, outlookParms, truthy_none,
    get_path, get_to, get_cc, get_bcc, get_subject, get_body, hto, hcc, hbcc, hsub, hbody]

theorem getUrlParams_appleMail (o : Options) :
    getUrlParams "apple-mail" o =
      o.«to».getD "" ++ "?" ++ String.intercalate "&" (getUrlPairs appleMailParms o) := rfl

theorem getUrlParams_gmail (o : Options) :
    getUrlParams "gmail" o =
      "co" ++ "?" ++ String.intercalate "&" (getUrlPairs gmailParms o) := rfl

theorem getUrlParams_inbox (o : Options) :
    getUrlParams "inbox" o =
      "co" ++ "?" ++ String.intercalate "&" (getUrlPairs inboxParms o) := rfl

theorem getUrlParams_spark (o : Options) :
    getUrlParams "spark" o =
      "compose" ++ "?" ++ String.intercalate "&" (getUrlPairs sparkParms o) := rfl

theorem getUrlParams_airmail (o : Options) :
    getUrlParams "airmail" o =
      "compose" ++ "?" ++ String.intercalate "&" (getUrlPairs airmailParms o) := rfl

theorem getUrlParams_outlook (o : Options) :
    getUrlParams "outlook" o =
      "compose" ++ "?" ++ String.intercalate "&" (getUrlPairs outlookParms o) := rfl

/-- Case analysis on a successful dialect lookup. -/
theorem uri_cases {app : String} {parms : List (String × String)}
    (h : lookupKey app uriParams = some parms) :
    app = "apple-mail" ∧ parms = appleMailParms
    ∨ app = "gmail" ∧ parms = gmailParms
    ∨ app = "inbox" ∧ parms = inboxParms
    ∨ app = "spark" ∧ parms = sparkParms
    ∨ app = "airmail" ∧ parms = airmailParms
    ∨ app = "outlook" ∧ parms = outlookParms := by
  simp only [uriParams, lookupKey] at h
  split_ifs at h <;> simp_all

end EmailLink

namespace EmailLink

/-- The worked example of the spec: to is a@b.com, subject is Hi. -/
def exampleComposeOptions : Options :=
  { «to» := some "a@b.com", subject := some "Hi" }

/-- C1: for every compose-capable app (one with a dialect entry) and every
options bundle, `getUrlParams` emits one `key=value` pair for each field
among to, cc, bcc, subject, body that the dialect defines and for which the
options supply a non-empty value, using the dialect's key and the raw
unencoded value; fields missing from the dialect or absent/empty in the
options produce no pair; the pairs are joined with `&` and the result is
`<path>?<pairs>` (a trailing bare `?` when no pairs exist): the source
function coincides with the builder written from the spec's words. -/
theorem composeUrl_refines_spec (app : String) (o : Options)
    (h : (lookupKey app uriParams).isSome) :
    getUrlParams app o = composeUrlSpec app o := by
  obtain ⟨parms, hp⟩ := Option.isSome_iff_exists.mp h
  rcases uri_cases hp with ⟨ha, hd⟩ | ⟨ha, hd⟩ | ⟨ha, hd⟩ | ⟨ha, hd⟩ | ⟨ha, hd⟩ | ⟨ha, hd⟩ <;>
    subst ha
  · rw [getUrlParams_appleMail, getUrlPairs_eq, pairs_spec_appleMail]; rfl
  · rw [getUrlParams_gmail, getUrlPairs_eq, pairs_spec_gmail]; rfl
  · rw [getUrlParams_inbox, getUrlPairs_eq, pairs_spec_inbox]; rfl
  · rw [getUrlParams_spark, getUrlPairs_eq, pairs_spec_spark]; rfl
  · rw [getUrlParams_airmail, getUrlPairs_eq, pairs_spec_airmail]; rfl
  · rw [getUrlParams_outlook, getUrlPairs_eq, pairs_spec_outlook]; rfl

/-- Witness for C1 at the spec's example: gmail with to and subject set. -/
theorem composeUrl_refines_spec_witness :
    getUrlParams "gmail" exampleComposeOptions = "co?to=a@b.com&subject=Hi"
    ∧ composeUrlSpec "gmail" exampleComposeOptions = "co?to=a@b.com&subject=Hi" :=
  ⟨(composeUrl_refines_spec "gmail" exampleComposeOptions (by decide)).trans (by decide),
   by decide⟩

/-- C2: for apple-mail the path segment is the literal value of the `to`
option (empty string when absent) and the query pairs never carry a
recipient key (the pair list is independent of the `to` option, apple-mail's
dialect defining no `to` field); for every other app with a dialect, the
path segment is that dialect's fixed `path` value. -/
theorem composePath_correct :
    (∀ o : Options,
      getUrlParams "apple-mail" o =
        o.«to».getD "" ++ "?" ++ String.intercalate "&" (getUrlPairs appleMailParms o))
    ∧ (∀ (o : Options) (t₁ t₂ : Option String),
        getUrlPairs appleMailParms { o with «to» := t₁ } =
          getUrlPairs appleMailParms { o with «to» := t₂ })
    ∧ (∀ (app : String) (parms : List (String × String)) (o : Options),
        lookupKey app uriParams = some parms → app ≠ "apple-mail" →
        (lookupKey "path" parms).isSome ∧
          getUrlParams app o =
            (lookupKey "path" parms).getD "undefined" ++ "?" ++
              String.intercalate "&" (getUrlPairs parms o)) := by
  refine ⟨fun o => getUrlParams_appleMail o, fun o t₁ t₂ => rfl, ?_⟩
  intro app parms o hp hne
  rcases uri_cases hp with ⟨ha, hd⟩ | ⟨ha, hd⟩ | ⟨ha, hd⟩ | ⟨ha, hd⟩ | ⟨ha, hd⟩ | ⟨ha, hd⟩ <;>
    subst ha <;> subst hd
  · exact absurd rfl hne
  · exact ⟨rfl, getUrlParams_gmail o⟩
  · exact ⟨rfl, getUrlParams_inbox o⟩
  · exact ⟨rfl, getUrlParams_spark o⟩
  · exact ⟨rfl, getUrlParams_airmail o⟩
  · exact ⟨rfl, getUrlParams_outlook o⟩

/-- Witness for C2: the spec's apple-mail example, and the gmail instance of
the fixed-path clause. -/
theorem composePath_correct_witness :
    getUrlParams "apple-mail" exampleComposeOptions = "a@b.com?subject=Hi"
    ∧ (lookupKey "path" gmailParms).isSome :=
  ⟨(composePath_correct.1 exampleComposeOptions).trans (by decide),
   (composePath_correct.2.2 "gmail" gmailParms exampleComposeOptions rfl (by decide)).1⟩

end EmailLink

namespace EmailLink

/-! ### Resolver helper lemmas -/

/-- A present-but-falsy string property is the empty string. -/
theorem truthy_some_false {s : String} (h : truthy (some s) = false) : s = "" := by
  simpa [truthy] using h

/-- Every registry key is a non-empty string. -/
theorem keys_ne_empty : ∀ x ∈ prefixKeys, x ≠ "" := by
  intro x hx
  simp [prefixKeys, prefixes] at hx
  rcases hx with h | h | h | h | h | h <;> subst h <;> decide

/-- A key occurring among an association list's keys has a defined lookup. -/
theorem lookupKey_isSome_of_mem {α : Type} {l : List (String × α)} {k : String}
    (h : k ∈ l.map Prod.fst) : (lookupKey k l).isSome := by
  induction l with
  | nil => simp at h
  | cons p t ih =>
    by_cases hpk : p.1 = k
    · simp [lookupKey, hpk]
    · simp only [List.map_cons, List.mem_cons] at h
      rcases h with h | h
      · exact absurd h.symm hpk
      · simpa [lookupKey, hpk] using ih h

/-- The available apps are registry keys. -/
theorem installedApps_mem_keys {env : Env} {a : String} (h : a ∈ installedApps env) :
    a ∈ prefixKeys :=
  List.mem_of_mem_filter h

/-- The probe loop of `askAppChoice` issues one probe per registry key, in
registry-declaration order. -/
theorem probeTrace_eval (env : Env) :
    probeTrace env =
      [Call.probe "message://", Call.probe "googlegmail://", Call.probe "inbox-gmail://",
       Call.probe "readdle-spark://", Call.probe "airmail://", Call.probe "ms-outlook://"] := rfl

/-- With no explicit app in the options, `getApp` runs the choice flow. -/
theorem getApp_no_explicit (env : Env) (o : Options) (h : truthy o.app = false) :
    getApp env (OptionsArg.bundle o) = resolveByChoice env o := by
  cases ho : o.app with
  | none => simp [getApp, ho]
  | some s =>
    have hs : s = "" := truthy_some_false (ho ▸ h)
    subst hs
    simp [getApp, ho]

/-- The choice flow never reports invalid options. -/
theorem resolveByChoice_ne_invalid (env : Env) (o : Options) :
    (resolveByChoice env o).1 ≠ Except.error EmailError.invalidOptions := by
  rcases h : (askAppChoice env o.title o.message o.cancelLabel o.removeText).1 with _ | a <;>
    simp [resolveByChoice, h]
  split_ifs <;> simp

/-- The choice flow reports exactly the collaborator calls of `askAppChoice`. -/
theorem resolveByChoice_snd (env : Env) (o : Options) :
    (resolveByChoice env o).2 =
      (askAppChoice env o.title o.message o.cancelLabel o.removeText).2 := by
  rcases h : (askAppChoice env o.title o.message o.cancelLabel o.removeText).1 with _ | a
  · simp [resolveByChoice, h]
  · by_cases hb : a = "" <;> simp [resolveByChoice, h, hb]

/-- A successful choice flow comes from a successful `askAppChoice`. -/
theorem resolveByChoice_ok {env : Env} {o : Options} {a : String}
    (h : (resolveByChoice env o).1 = Except.ok a) :
    (askAppChoice env o.title o.message o.cancelLabel o.removeText).1 = some a := by
  rcases hc : (askAppChoice env o.title o.message o.cancelLabel o.removeText).1 with _ | b
  · simp [resolveByChoice, hc] at h
  · by_cases hb : b = "" <;> simp [resolveByChoice, hc, hb] at h
    rw [← h]

/-- An app chosen by `askAppChoice` is one of the available apps. -/
theorem askAppChoice_mem {env : Env} {t m c : Option String} {r : Option Bool} {a : String}
    (h : (askAppChoice env t m c r).1 = some a) : a ∈ installedApps env := by
  by_cases hl : (installedApps env).length < 2
  · rcases hh : (installedApps env).head? with _ | x <;>
      simp [askAppChoice, hl, hh] at h
    rcases h with ⟨hx, hxa⟩
    subst hxa
    exact List.mem_of_mem_head? hh
  · simp [askAppChoice, hl] at h
    exact List.getElem?_mem h.2

end EmailLink

namespace EmailLink

/-! ### Concrete probe/picker environments used by witnesses -/

/-- Environment in which every scheme probes as openable. -/
def envAll : Env := { canOpen := fun _ => .ok true, pick := fun _ _ => 0 }

/-- Environment in which the probe collaborator rejects every scheme. -/
def envProbeFail : Env := { canOpen := fun _ => .error (), pick := fun _ _ => 0 }

/-- Environment in which only the spark scheme is openable. -/
def envSparkOnly : Env :=
  { canOpen := fun s => .ok (decide (s = "readdle-spark://")), pick := fun _ _ => 0 }

/-- Environment in which gmail and outlook are openable and the picker
presses index 1. -/
def envGmailOutlook : Env :=
  { canOpen := fun s => .ok (decide (s = "googlegmail://" ∨ s = "ms-outlook://")),
    pick := fun _ _ => 1 }

/-- Environment in which gmail and outlook are openable and the picker
presses the cancel button (index 2). -/
def envGmailOutlookCancel : Env :=
  { canOpen := fun s => .ok (decide (s = "googlegmail://" ∨ s = "ms-outlook://")),
    pick := fun _ _ => 2 }

/-- Environment in which no scheme is openable. -/
def envNoneInstalled : Env := { canOpen := fun _ => .ok false, pick := fun _ _ => 0 }

/-- A present, truthy, recognized `app` option short-circuits resolution:
no collaborator call is made. -/
theorem getApp_explicit (env : Env) (o : Options) (s : String)
    (h1 : o.app = some s) (h2 : s ≠ "") (h3 : s ∈ prefixKeys) :
    getApp env (OptionsArg.bundle o) = (Except.ok s, []) := by
  simp [getApp, h1, h2, h3]

/-- C3: for every options bundle whose `app` field is present, non-empty and
a known app id, `getApp` yields exactly that app id with no probe and no
picker call (the call trace is empty), regardless of the environment. -/
theorem explicitApp_resolves_directly (env : Env) (o : Options) (s : String)
    (h1 : o.app = some s) (h2 : s ≠ "") (h3 : s ∈ prefixKeys) :
    getApp env (OptionsArg.bundle o) = (Except.ok s, []) :=
  getApp_explicit env o s h1 h2 h3

/-- Witness for C3: an explicit gmail resolves even in an environment where
every probe rejects. -/
theorem explicitApp_resolves_directly_witness :
    getApp envProbeFail (OptionsArg.bundle { app := some "gmail" }) =
      (Except.ok "gmail", []) :=
  explicitApp_resolves_directly envProbeFail { app := some "gmail" } "gmail" rfl
    (by decide) (by decide)

/-- C4 counterexample: a falsy non-object options value (the empty string,
zero, false — all not object-like) does not fail with invalid options: it
slips past the truthiness guard and crashes with a TypeError; likewise a
null or undefined options value. -/
theorem invalidOptions_claim_cex :
    (getApp envAll (OptionsArg.prim false)).1 = Except.error EmailError.typeError
    ∧ (getApp envAll (OptionsArg.prim false)).1 ≠ Except.error EmailError.invalidOptions
    ∧ getApp envAll OptionsArg.nullish = (Except.error EmailError.typeError, []) := by
  decide

/-- C4 (amended): `getApp` fails with invalid options exactly when the
options value is a truthy non-object, or a bundle whose `app` field is
non-empty and unrecognized; such a failure is surfaced with no probe and no
picker call; a nullish or falsy non-object options value instead raises a
TypeError (also before any collaborator call). -/
theorem invalidOptions_characterization (env : Env) (arg : OptionsArg) :
    ((getApp env arg).1 = Except.error EmailError.invalidOptions ↔
      arg = OptionsArg.prim true ∨
        ∃ o s, arg = OptionsArg.bundle o ∧ o.app = some s ∧ s ≠ "" ∧ s ∉ prefixKeys)
    ∧ ((getApp env arg).1 = Except.error EmailError.invalidOptions →
        (getApp env arg).2 = [])
    ∧ (arg = OptionsArg.nullish ∨ arg = OptionsArg.prim false →
        getApp env arg = (Except.error EmailError.typeError, [])) := by
  rcases arg with _ | b | o
  · refine ⟨by simp [getApp], by simp [getApp], by simp [getApp]⟩
  · cases b
    · refine ⟨by simp [getApp], by simp [getApp], by simp [getApp]⟩
    · refine ⟨by simp [getApp], by simp [getApp], by simp⟩
  · rcases ho : o.app with _ | s
    · have hg : getApp env (OptionsArg.bundle o) = resolveByChoice env o := by
        simp [getApp, ho]
      refine ⟨?_, ?_, by simp⟩
      · rw [hg]
        constructor
        · intro hI
          exact absurd hI (resolveByChoice_ne_invalid env o)
        · rintro (h | ⟨o', s, hb, hs, _⟩)
          · simp at h
          · rw [OptionsArg.bundle.injEq] at hb
            rw [← hb] at hs
            rw [ho] at hs
            simp at hs
      · rw [hg]
        intro hI
        exact absurd hI (resolveByChoice_ne_invalid env o)
    · by_cases hs : s = ""
      · subst hs
        have hg : getApp env (OptionsArg.bundle o) = resolveByChoice env o :=
          getApp_no_explicit env o (by simp [truthy, ho])
        refine ⟨?_, ?_, by simp⟩
        · rw [hg]
          constructor
          · intro hI
            exact absurd hI (resolveByChoice_ne_invalid env o)
          · rintro (h | ⟨o', s', hb, hs', hne, _⟩)
            · simp at h
            · rw [OptionsArg.bundle.injEq] at hb
              rw [← hb, ho] at hs'
              simp at hs'
              exact absurd hs'.symm hne
        · rw [hg]
          intro hI
          exact absurd hI (resolveByChoice_ne_invalid env o)
      · by_cases hmem : s ∈ prefixKeys
        · have hg : getApp env (OptionsArg.bundle o) = (Except.ok s, []) :=
            getApp_explicit env o s ho hs hmem
          refine ⟨?_, ?_, by simp⟩
          · rw [hg]
            constructor
            · intro hI
              simp at hI
            · rintro (h | ⟨o', s', hb, hs', hne, hnot⟩)
              · simp at h
              · rw [OptionsArg.bundle.injEq] at hb
                rw [← hb, ho] at hs'
                simp at hs'
                subst hs'
                exact absurd hmem hnot
          · rw [hg]
            intro hI
            simp at hI
        · have hg : getApp env (OptionsArg.bundle o) =
              (Except.error EmailError.invalidOptions, []) := by
            simp [getApp, ho, hs, hmem]
          refine ⟨?_, by rw [hg]; exact fun _ => rfl, by simp⟩
          · rw [hg]
            constructor
            · intro _
              exact Or.inr ⟨o, s, rfl, ho, hs, hmem⟩
            · intro _
              rfl
  
/-- Witness for C4: a truthy non-object fails with invalid options and an
empty trace; an unknown explicit app fails with invalid options; a nullish
options value raises the TypeError instead. -/
theorem invalidOptions_characterization_witness :
    (getApp envAll (OptionsArg.prim true)).1 = Except.error EmailError.invalidOptions
    ∧ (getApp envAll (OptionsArg.prim true)).2 = []
    ∧ getApp envAll OptionsArg.nullish = (Except.error EmailError.typeError, []) := by
  refine ⟨?_, ?_, ?_⟩
  · exact ((invalidOptions_characterization envAll (OptionsArg.prim true)).1).mpr (Or.inl rfl)
  · exact (invalidOptions_characterization envAll (OptionsArg.prim true)).2.1 (by decide)
  · exact (invalidOptions_characterization envAll OptionsArg.nullish).2.2 (Or.inl rfl)

/-- C5: `isAppInstalled` always resolves to a boolean (it is a total
function into `Bool`): false with no probe call for an unrecognized id;
false when the probe rejects a known app's scheme; and the probe's answer
for the app's registry scheme otherwise. -/
theorem isAppInstalled_spec :
    (∀ (env : Env) (app : String), lookupKey app prefixes = none →
        isAppInstalled env app = (false, []))
    ∧ (∀ (env : Env) (app scheme : String), lookupKey app prefixes = some scheme →
        env.canOpen scheme = Except.error () →
        isAppInstalled env app = (false, [Call.probe scheme]))
    ∧ (∀ (env : Env) (app scheme : String) (b : Bool), lookupKey app prefixes = some scheme →
        env.canOpen scheme = Except.ok b →
        isAppInstalled env app = (b, [Call.probe scheme])) :=
  ⟨fun env app h => by simp [isAppInstalled, h],
   fun env app scheme h hc => by simp [isAppInstalled, h, hc],
   fun env app scheme b h hc => by simp [isAppInstalled, h, hc]⟩

/-- Witness for C5: an unrecognized id with no probe call; a rejecting probe
normalized to false; a successful probe's answer passed through. -/
theorem isAppInstalled_spec_witness :
    isAppInstalled envAll "yahoo" = (false, [])
    ∧ isAppInstalled envProbeFail "gmail" = (false, [Call.probe "googlegmail://"])
    ∧ isAppInstalled envAll "gmail" = (true, [Call.probe "googlegmail://"]) :=
  ⟨isAppInstalled_spec.1 envAll "yahoo" rfl,
   isAppInstalled_spec.2.1 envProbeFail "gmail" "googlegmail://" rfl rfl,
   isAppInstalled_spec.2.2 envAll "gmail" "googlegmail://" true rfl rfl⟩

end EmailLink

namespace EmailLink

/-! ### Choice-flow lemmas and the remaining claims -/

/-- With exactly one available app, `askAppChoice` resolves it silently. -/
theorem askAppChoice_single (env : Env) (t m c : Option String) (r : Option Bool)
    (a : String) (h : installedApps env = [a]) :
    askAppChoice env t m c r = (some a, probeTrace env) := by
  have ha : a ∈ prefixKeys := installedApps_mem_keys (by rw [h]; exact List.mem_singleton_self a)
  have hne : a ≠ "" := keys_ne_empty a ha
  simp [askAppChoice, h, hne]

/-- With exactly one available app and no explicit app option, `getApp`
resolves it with only the six probes as collaborator calls. -/
theorem getApp_single (env : Env) (o : Options) (a : String)
    (h0 : truthy o.app = false) (h : installedApps env = [a]) :
    getApp env (OptionsArg.bundle o) = (Except.ok a, probeTrace env) := by
  have ha : a ∈ prefixKeys := installedApps_mem_keys (by rw [h]; exact List.mem_singleton_self a)
  have hne : a ≠ "" := keys_ne_empty a ha
  rw [getApp_no_explicit env o h0]
  simp [resolveByChoice,
    askAppChoice_single env o.title o.message o.cancelLabel o.removeText a h, hne]

/-- With two or more available apps, `askAppChoice` presents the picker and
maps the pressed index back. -/
theorem askAppChoice_multi (env : Env) (t m c : Option String) (r : Option Bool)
    (h : ¬ (installedApps env).length < 2) :
    askAppChoice env t m c r =
      ((if env.pick (pickerLabels env c) ((pickerLabels env c).length - 1) =
            (pickerLabels env c).length - 1 then none
        else (installedApps env).get?
          (env.pick (pickerLabels env c) ((pickerLabels env c).length - 1))),
       probeTrace env ++ [Call.picker (pickerLabels env c)]) := by
  simp [askAppChoice, h]

/-- C6: with no explicit app option, exactly one installed app resolves
automatically (the trace is the six probes, with no picker call), and zero
installed apps makes `getApp`, `openInbox` and `openComposer` fail with
no-app-available. -/
theorem autoResolve_single_and_none :
    (∀ (env : Env) (o : Options) (a : String),
        truthy o.app = false → installedApps env = [a] →
        getApp env (OptionsArg.bundle o) = (Except.ok a, probeTrace env)
        ∧ ∀ ls, Call.picker ls ∉ (getApp env (OptionsArg.bundle o)).2)
    ∧ (∀ (env : Env) (o : Options),
        truthy o.app = false → installedApps env = [] →
        (getApp env (OptionsArg.bundle o)).1 = Except.error EmailError.noAppAvailable
        ∧ (openInbox env (OptionsArg.bundle o)).1 = Except.error EmailError.noAppAvailable
        ∧ (openComposer env (OptionsArg.bundle o)).1 =
            Except.error EmailError.noAppAvailable) := by
  constructor
  · intro env o a h0 h
    have hg := getApp_single env o a h0 h
    refine ⟨hg, ?_⟩
    intro ls
    rw [hg]
    simp [probeTrace_eval]
  · intro env o h0 h
    have hg : getApp env (OptionsArg.bundle o) =
        (Except.error EmailError.noAppAvailable, probeTrace env) := by
      rw [getApp_no_explicit env o h0]
      simp [resolveByChoice, askAppChoice, h]
    exact ⟨by rw [hg], by simp [openInbox, hg], by simp [openComposer, hg]⟩

/-- Witness for C6: with only spark installed, resolution yields spark with
just the probe calls; with nothing installed, openInbox and openComposer
fail with no-app-available. -/
theorem autoResolve_single_and_none_witness :
    getApp envSparkOnly (OptionsArg.bundle {}) = (Except.ok "spark", probeTrace envSparkOnly)
    ∧ (openInbox envNoneInstalled (OptionsArg.bundle {})).1 =
        Except.error EmailError.noAppAvailable
    ∧ (openComposer envNoneInstalled (OptionsArg.bundle {})).1 =
        Except.error EmailError.noAppAvailable :=
  ⟨(autoResolve_single_and_none.1 envSparkOnly {} "spark" rfl (by decide)).1,
   (autoResolve_single_and_none.2 envNoneInstalled {} rfl (by decide)).2.1,
   (autoResolve_single_and_none.2 envNoneInstalled {} rfl (by decide)).2.2⟩

end EmailLink

namespace EmailLink

/-- C7: with no explicit app option and at least two installed apps, the
picker is invoked with the installed apps' display titles (in registry
order: the available list is a sublist of the registry keys) followed by the
cancel label; pressing the index of an app resolves the app at that position
of the installed list, and pressing the cancel index fails with
no-app-available. -/
theorem picker_flow (env : Env) (o : Options)
    (h0 : truthy o.app = false) (h2 : 2 ≤ (installedApps env).length) :
    (installedApps env).Sublist prefixKeys
    ∧ Call.picker (pickerLabels env o.cancelLabel) ∈ (getApp env (OptionsArg.bundle o)).2
    ∧ (∀ i a,
        env.pick (pickerLabels env o.cancelLabel)
            ((pickerLabels env o.cancelLabel).length - 1) = i →
        (installedApps env).get? i = some a →
        (getApp env (OptionsArg.bundle o)).1 = Except.ok a)
    ∧ (env.pick (pickerLabels env o.cancelLabel)
          ((pickerLabels env o.cancelLabel).length - 1) =
            (pickerLabels env o.cancelLabel).length - 1 →
        (getApp env (OptionsArg.bundle o)).1 = Except.error EmailError.noAppAvailable) := by
  have hl : ¬ (installedApps env).length < 2 := by omega
  have hask := askAppChoice_multi env o.title o.message o.cancelLabel o.removeText hl
  have hg : getApp env (OptionsArg.bundle o) = resolveByChoice env o :=
    getApp_no_explicit env o h0
  have hlen : (pickerLabels env o.cancelLabel).length = (installedApps env).length + 1 := by
    simp [pickerLabels]
  refine ⟨List.filter_sublist _, ?_, ?_, ?_⟩
  · rw [hg, resolveByChoice_snd, hask]
    simp
  · intro i a hpick hget
    have hi : i < (installedApps env).length := by
      by_contra hcon
      push_neg at hcon
      rw [List.get?_eq_none.mpr hcon] at hget
      exact Option.noConfusion hget
    have hni : ¬ (i = (pickerLabels env o.cancelLabel).length - 1) := by omega
    have hfst : (askAppChoice env o.title o.message o.cancelLabel o.removeText).1 = some a := by
      rw [hask]
      simp only [hpick]
      rw [if_neg hni]
      exact hget
    have ha : a ∈ prefixKeys := installedApps_mem_keys (askAppChoice_mem hfst)
    have hne : a ≠ "" := keys_ne_empty a ha
    rw [hg]
    simp [resolveByChoice, hfst, hne]
  · intro hcancel
    have hfst : (askAppChoice env o.title o.message o.cancelLabel o.removeText).1 = none := by
      rw [hask]
      simp only [hcancel]
      simp
    rw [hg]
    simp [resolveByChoice, hfst]

/-- Witness for C7: with gmail and outlook installed the labels are Gmail,
Outlook, Cancel; pressing index 1 resolves outlook; pressing the cancel
index fails with no-app-available. -/
theorem picker_flow_witness :
    pickerLabels envGmailOutlook none = ["Gmail", "Outlook", "Cancel"]
    ∧ (getApp envGmailOutlook (OptionsArg.bundle {})).1 = Except.ok "outlook"
    ∧ (getApp envGmailOutlookCancel (OptionsArg.bundle {})).1 =
        Except.error EmailError.noAppAvailable :=
  ⟨by decide,
   (picker_flow envGmailOutlook {} rfl (by decide)).2.2.1 1 "outlook" rfl (by decide),
   (picker_flow envGmailOutlookCancel {} rfl (by decide)).2.2.2 (by decide)⟩

/-- C8: on successful resolution, `openInbox` launches exactly the resolved
app's registry scheme (one launch call appended to the resolution trace and
nothing else), and `openComposer` launches the compose URL prefixed with the
fixed `mailto:` for apple-mail and with the registry scheme for every other
app. -/
theorem launch_urls (env : Env) (arg : OptionsArg) (app scheme : String)
    (h1 : (getApp env arg).1 = Except.ok app)
    (h2 : lookupKey app prefixes = some scheme) :
    openInbox env arg = (Except.ok (), (getApp env arg).2 ++ [Call.launch scheme])
    ∧ ∀ o, arg = OptionsArg.bundle o →
        openComposer env arg =
          (Except.ok (), (getApp env arg).2 ++
            [Call.launch ((if app = "apple-mail" then "mailto:" else scheme) ++
              getUrlParams app o)]) := by
  constructor
  · simp [openInbox, h1, h2]
  · intro o ha
    subst ha
    by_cases happ : app = "apple-mail" <;> simp [openComposer, h1, h2, happ]

/-- An options bundle naming gmail explicitly. -/
def oGmail : Options := { app := some "gmail" }

/-- An options bundle naming apple-mail explicitly, with the example compose
fields. -/
def oAppleCompose : Options :=
  { app := some "apple-mail", «to» := some "a@b.com", subject := some "Hi" }

/-- Witness for C8: an explicit gmail inbox launch uses the gmail scheme
alone; an explicit apple-mail compose launch uses the mailto prefix. -/
theorem launch_urls_witness :
    openInbox envAll (OptionsArg.bundle oGmail) =
      (Except.ok (), [Call.launch "googlegmail://"])
    ∧ openComposer envAll (OptionsArg.bundle oAppleCompose) =
      (Except.ok (), [Call.launch "mailto:a@b.com?subject=Hi"]) :=
  ⟨((launch_urls envAll (OptionsArg.bundle oGmail) "gmail"
      "googlegmail://" (by decide) rfl).1).trans (by decide),
   ((launch_urls envAll (OptionsArg.bundle oAppleCompose) "apple-mail" "message://"
      (by decide) rfl).2 oAppleCompose rfl).trans (by decide)⟩

/-- Record update setting the `app` option. -/
def Options.withApp (o : Options) (a : Option String) : Options := { o with app := a }

/-- The call trace of `askAppChoice` is the probe trace possibly followed by
one picker call. -/
theorem askAppChoice_snd_split (env : Env) (t m c : Option String) (r : Option Bool) :
    ∃ rest, (askAppChoice env t m c r).2 = probeTrace env ++ rest := by
  by_cases hl : (installedApps env).length < 2
  · exact ⟨[], by simp [askAppChoice, hl]⟩
  · exact ⟨[Call.picker (pickerLabels env c)], by simp [askAppChoice, hl]⟩

/-- C9: an options bundle whose `app` field is the empty string behaves
exactly like one whose `app` field is absent: resolution is the same value,
it is never an invalid-options failure, and it probes every registered app
in registry-declaration order. -/
theorem emptyApp_like_absent (env : Env) (o : Options) :
    getApp env (OptionsArg.bundle (o.withApp (some ""))) =
      getApp env (OptionsArg.bundle (o.withApp none))
    ∧ (getApp env (OptionsArg.bundle (o.withApp (some "")))).1 ≠
        Except.error EmailError.invalidOptions
    ∧ ∃ rest, (getApp env (OptionsArg.bundle (o.withApp (some "")))).2 =
        [Call.probe "message://", Call.probe "googlegmail://", Call.probe "inbox-gmail://",
         Call.probe "readdle-spark://", Call.probe "airmail://", Call.probe "ms-outlook://"]
          ++ rest := by
  have h1 : getApp env (OptionsArg.bundle (o.withApp (some ""))) =
      resolveByChoice env (o.withApp (some "")) :=
    getApp_no_explicit env _ (by simp [truthy, Options.withApp])
  have h2 : getApp env (OptionsArg.bundle (o.withApp none)) =
      resolveByChoice env (o.withApp none) :=
    getApp_no_explicit env _ (by simp [truthy, Options.withApp])
  have h3 : resolveByChoice env (o.withApp (some "")) = resolveByChoice env (o.withApp none) := rfl
  refine ⟨by rw [h1, h2, h3], ?_, ?_⟩
  · rw [h1]
    exact resolveByChoice_ne_invalid env _
  · rw [h1, resolveByChoice_snd, ← probeTrace_eval env]
    exact askAppChoice_snd_split env _ _ _ _

/-- C10: every app id that `getApp` returns — explicit or chosen — is a key
of the scheme registry, so the `prefixes[app]` lookup of `openInbox` and
`openComposer` is always defined. -/
theorem resolvedApp_in_registry (env : Env) (arg : OptionsArg) (app : String)
    (h : (getApp env arg).1 = Except.ok app) :
    (lookupKey app prefixes).isSome := by
  rcases arg with _ | b | o
  · simp [getApp] at h
  · cases b <;> simp [getApp] at h
  · rcases ho : o.app with _ | s
    · rw [show getApp env (OptionsArg.bundle o) = resolveByChoice env o from
        by simp [getApp, ho]] at h
      exact lookupKey_isSome_of_mem (installedApps_mem_keys (askAppChoice_mem (resolveByChoice_ok h)))
    · by_cases hs : s = ""
      · subst hs
        rw [getApp_no_explicit env o (by simp [truthy, ho])] at h
        exact lookupKey_isSome_of_mem
          (installedApps_mem_keys (askAppChoice_mem (resolveByChoice_ok h)))
      · by_cases hmem : s ∈ prefixKeys
        · rw [getApp_explicit env o s ho hs hmem] at h
          simp only [Except.ok.injEq] at h
          subst h
          exact lookupKey_isSome_of_mem hmem
        · rw [show getApp env (OptionsArg.bundle o) =
              (Except.error EmailError.invalidOptions, []) from
            by simp [getApp, ho, hs, hmem]] at h
          simp at h

/-- Witness for C10: the app picked by the user in the two-installed
environment is a registry key. -/
theorem resolvedApp_in_registry_witness : (lookupKey "outlook" prefixes).isSome :=
  resolvedApp_in_registry envGmailOutlook (OptionsArg.bundle {}) "outlook" (by decide)

end EmailLink
